import Mathlib

/-!
# SDK generation action: `internal/actions/runWorkflow.go`

A shallow embedding of `RunWorkflow`, `finalize` and `getReleasesInfo`.

* Go maps with string keys are partial functions from keys to values; a map
  value that may be the nil map is an `Option` of such a function.
* Every call to an external collaborator (git, cli, run, releases,
  environment, setOutputs) is answered by an oracle, a value of `Collab`, and
  is recorded as an `Event` in the trace of the run, in program order.
* A Go `defer` is run after the body of the function, also when the body
  panics.
-/

set_option autoImplicit false

/-! ## Go values -/

/-- A Go `error` value that is not nil. -/
abbrev GoError := String

/-- A non-nil Go `map[string]V`: the value stored under each key, if any. -/
abbrev GoMap (V : Type) := String → Option V

/-- The map literal `map[string]V{}`. -/
def GoMap.empty {V : Type} : GoMap V := fun _ => none

/-- The assignment `m[k] = v`. -/
def GoMap.insert {V : Type} (m : GoMap V) (k : String) (v : V) : GoMap V :=
  fun k' => if k' = k then some v else m k'

/-- The expression `m[k]` on a `map[string]string`: the zero value `""` when
the key is absent. -/
def GoMap.index (m : GoMap String) (k : String) : String := (m k).getD ""

/-- The workflow outputs, `map[string]string`. -/
abbrev Outputs := GoMap String

/-! ## Types of the packages `releases` and `run` (fields used by the source) -/

/-- The struct `releases.GenerationInfo`. -/
structure releases.GenerationInfo where
  Version : String
  Path : String
deriving DecidableEq, Repr

/-- The struct `releases.LanguageReleaseInfo`. -/
structure releases.LanguageReleaseInfo where
  PackageName : String
  Version : String
  Path : String
deriving DecidableEq, Repr

/-- The struct `releases.ReleasesInfo`, with the fields lines 72-80 set. -/
structure releases.ReleasesInfo where
  ReleaseTitle : String
  DocVersion : String
  SpeakeasyVersion : String
  GenerationVersion : String
  DocLocation : String
  Languages : GoMap releases.LanguageReleaseInfo
  LanguagesGenerated : GoMap releases.GenerationInfo

/-- Modelled from the spec: the element type of `genInfo.Languages`, declared
in package `run`, which is not part of the source file; section 6 of the spec
gives `{version, packageName}` and lines 96 and 102 read these two fields. -/
structure run.LanguageGenInfo where
  Version : String
  PackageName : String
deriving DecidableEq, Repr

/-- Modelled from the spec: the type `genInfo` points to, declared in package
`run`; section 6 of the spec lists its fields and lines 69, 70, 76 and 88 read
them. `Languages` is read only, so a nil map there is the empty map. -/
structure run.GenerationInfo where
  OpenAPIDocVersion : String
  SpeakeasyVersion : String
  GenerationVersion : String
  Languages : GoMap run.LanguageGenInfo

/-! ## The aggregation loop, lines 66-108 -/

/-- The variables the loop of lines 87-108 assigns. -/
structure AggState where
  releaseInfo : releases.ReleasesInfo
  anythingRegenerated : Bool

/-- The record literal of lines 72-80; `invokeTime` is
`environment.GetInvokeTime().Format(...)` and `docLocation` is
`environment.GetOpenAPIDocLocation()`. -/
def newReleaseInfo (invokeTime docLocation : String) (genInfo : run.GenerationInfo) :
    releases.ReleasesInfo where
  ReleaseTitle := invokeTime
  DocVersion := genInfo.OpenAPIDocVersion
  SpeakeasyVersion := genInfo.SpeakeasyVersion
  GenerationVersion := genInfo.GenerationVersion
  DocLocation := docLocation
  Languages := GoMap.empty
  LanguagesGenerated := GoMap.empty

/-- One iteration of the loop, lines 88-107. -/
def loopBody (genInfo : run.GenerationInfo) (outputs : Outputs) (st : AggState)
    (lang : String) : AggState :=
  match genInfo.Languages lang with
  | none => st
  | some langGenInfo =>
    if outputs.index (lang ++ "_regenerated") = "true" then
      let path := outputs.index (lang ++ "_directory")
      let generated := st.releaseInfo.LanguagesGenerated.insert lang
        { Version := langGenInfo.Version, Path := path }
      let published :=
        match outputs ("publish_" ++ lang) with
        | some published =>
          if published = "true" then
            st.releaseInfo.Languages.insert lang
              { PackageName := langGenInfo.PackageName
                Version := langGenInfo.Version
                Path := path }
          else st.releaseInfo.Languages
        | none => st.releaseInfo.Languages
      { releaseInfo :=
          { st.releaseInfo with LanguagesGenerated := generated, Languages := published }
        anythingRegenerated := true }
    else st

/-- Lines 66-108 without the call of line 82: the record of lines 72-80 and
`anythingRegenerated = false`, then the loop over `supportedLanguages`. -/
def aggregate (invokeTime docLocation : String) (genInfo : run.GenerationInfo)
    (outputs : Outputs) (supportedLanguages : List String) : AggState :=
  supportedLanguages.foldl (loopBody genInfo outputs)
    { releaseInfo := newReleaseInfo invokeTime docLocation genInfo
      anythingRegenerated := false }

/-! ## Configuration, collaborators and events -/

/-- Modelled from the spec: the type `environment.Mode`, declared outside the
source file. The spec names the modes `PR` and `Direct`, the source compares
with `environment.ModePR` and `environment.ModeDirect`; `unknown` stands for
any other configured value, which the `switch` of line 153 leaves without a
case. -/
inductive environment.Mode where
  | ModePR
  | ModeDirect
  | unknown
deriving DecidableEq, Repr

/-- The constants `environment.ActionRunWorkflow` and
`environment.ActionFinalize` passed to the git calls. -/
inductive environment.Action where
  | ActionRunWorkflow
  | ActionFinalize
deriving DecidableEq, Repr

/-- The function that asks for the releases directory: `getReleasesDir` is
called on line 110 and on line 192. -/
inductive Caller where
  | RunWorkflow
  | getReleasesInfo
deriving DecidableEq, Repr

/-- The review request `FindExistingPR` returns, a pointer that may be nil. -/
abbrev PullRequest := Option Nat

/-- The getters of package `environment` the source reads; they are fixed for
the duration of a run. `GetInvokeTime` is the invocation time as line 73
formats it. -/
structure Config where
  GetMode : environment.Mode
  IsDebugMode : Bool
  CreateGitRelease : Bool
  GetPinnedSpeakeasyVersion : String
  GetInvokeTime : String
  GetOpenAPIDocLocation : String
  GetPreviousGenVersion : String

/-- A call the run makes to a collaborator, with its arguments. -/
inductive Event where
  | initAction
  | Download (pinnedVersion : String)
  | IsAtLeastVersion
  | FindExistingPR (branchName : String) (action : environment.Action)
  | FindOrCreateBranch (branchName : String) (action : environment.Action)
  | Run
  | setOutputs (outputs : Outputs)
  | GetSupportedLanguages
  | getReleasesDir
  | UpdateReleasesFile (releaseInfo : releases.ReleasesInfo) (releasesDir : String)
  | CommitAndPush (docVersion speakeasyVersion doc : String) (action : environment.Action)
  | FindBranch (branchName : String)
  | GetLastReleaseInfo (releasesDir : String)
  | CreateOrUpdatePR (branchName : String) (releaseInfo : releases.ReleasesInfo)
      (previousGenVersion : String) (pr : PullRequest)
  | MergeBranch (branchName : String)
  | CreateRelease (releaseInfo : releases.ReleasesInfo)
  | DeleteBranch (branchName : String)
  | Debug (message : String)

/-- The event is a call of `setOutputs`. -/
def Event.isSetOutputs : Event → Bool
  | .setOutputs _ => true
  | _ => false

/-- The event is a call of `g.DeleteBranch`. -/
def Event.isDeleteBranch : Event → Bool
  | .DeleteBranch _ => true
  | _ => false

/-- The event is a call of `releases.UpdateReleasesFile`. -/
def Event.isUpdateReleasesFile : Event → Bool
  | .UpdateReleasesFile _ _ => true
  | _ => false

/-- The event is a call of `g.CreateOrUpdatePR`. -/
def Event.isCreateOrUpdatePR : Event → Bool
  | .CreateOrUpdatePR _ _ _ _ => true
  | _ => false

/-- The event is a call of a method of `g`, the version-control collaborator. -/
def Event.isGit : Event → Bool
  | .FindExistingPR _ _ => true
  | .FindOrCreateBranch _ _ => true
  | .CommitAndPush _ _ _ _ => true
  | .FindBranch _ => true
  | .CreateOrUpdatePR _ _ _ _ => true
  | .MergeBranch _ => true
  | .CreateRelease _ => true
  | .DeleteBranch _ => true
  | _ => false

/-- What the collaborators answer. A call that returns `(value, error)` and
whose value the source reads only when the error is nil answers with
`Except`; a call that returns only an error answers with `Option GoError`,
`none` being nil. `Run` answers with the triple of line 57: the pointer
`genInfo`, the map `outputs` (`none` for the nil map) and the error.
`GetLastReleaseInfo` answers with a pointer that may be nil. -/
structure Collab where
  initAction : Option GoError
  Download : String → Except GoError String
  IsAtLeastVersion : Bool
  FindExistingPR : String → environment.Action → Except GoError (String × PullRequest)
  FindOrCreateBranch : String → environment.Action → Except GoError String
  Run : Option run.GenerationInfo × Option Outputs × Option GoError
  setOutputs : Outputs → Option GoError
  GetSupportedLanguages : Except GoError (List String)
  getReleasesDir : Caller → Except GoError String
  UpdateReleasesFile : releases.ReleasesInfo → String → Option GoError
  CommitAndPush : String → String → String → environment.Action → Except GoError String
  FindBranch : String → Except GoError String
  GetLastReleaseInfo : String → Except GoError (Option releases.ReleasesInfo)
  CreateOrUpdatePR : String → releases.ReleasesInfo → String → PullRequest → Option GoError
  MergeBranch : String → Except GoError String
  CreateRelease : releases.ReleasesInfo → Option GoError
  DeleteBranch : String → Option GoError

/-- How a Go function call ends: it returns nil, returns an error, or
panics. -/
inductive Outcome where
  | ok
  | error (err : GoError)
  | panic
deriving DecidableEq, Repr

/-- The call `logging.Debug(format, ..., err)` guarded by `err != nil`;
`message` is the formatted text before the error. -/
def debugIfError (message : String) : Option GoError → List Event
  | none => []
  | some err => [.Debug (message ++ err)]

/-! ## `getReleasesInfo` and `finalize`, lines 133-203 -/

/-- Lines 191-203. -/
def getReleasesInfo (c : Collab) :
    Except GoError (Option releases.ReleasesInfo) × List Event :=
  match c.getReleasesDir .getReleasesInfo with
  | .error err => (.error err, [.getReleasesDir])
  | .ok releasesDir =>
    match c.GetLastReleaseInfo releasesDir with
    | .error err => (.error err, [.getReleasesDir, .GetLastReleaseInfo releasesDir])
    | .ok releasesInfo => (.ok releasesInfo, [.getReleasesDir, .GetLastReleaseInfo releasesDir])

/-- What `finalize` leaves behind: how it ended, the map `outputs` (which it
updates in place) and the calls it made. -/
structure FinalizeResult where
  outcome : Outcome
  outputs : Outputs
  trace : List Event

/-- Lines 148-188, the body of `finalize` after the `defer` statement.
`branchName` is the name `FindBranch` returned. Inside `case
environment.ModePR` the names `branchName`, `pr` and `err` are declared anew
(line 155), so the later flush does not see them. -/
def finalizeBody (cfg : Config) (c : Collab) (outputs : Outputs) (branchName : String)
    (anythingRegenerated : Bool) : FinalizeResult :=
  if !anythingRegenerated then ⟨.ok, outputs, []⟩
  else
    match cfg.GetMode with
    | .ModePR =>
      match c.FindExistingPR branchName .ActionFinalize with
      | .error err => ⟨.error err, outputs, [.FindExistingPR branchName .ActionFinalize]⟩
      | .ok found =>
        let tr := .FindExistingPR branchName .ActionFinalize :: (getReleasesInfo c).2
        match (getReleasesInfo c).1 with
        | .error err => ⟨.error err, outputs, tr⟩
        | .ok none => ⟨.panic, outputs, tr⟩
        | .ok (some releaseInfo) =>
          let tr :=
            tr ++ [.CreateOrUpdatePR found.1 releaseInfo cfg.GetPreviousGenVersion found.2]
          match c.CreateOrUpdatePR found.1 releaseInfo cfg.GetPreviousGenVersion found.2 with
          | some err => ⟨.error err, outputs, tr⟩
          | none => ⟨.ok, outputs, tr⟩
    | .ModeDirect =>
      match (getReleasesInfo c).1 with
      | .error err => ⟨.error err, outputs, (getReleasesInfo c).2⟩
      | .ok releaseInfo =>
        let tr := (getReleasesInfo c).2 ++ [.MergeBranch branchName]
        match c.MergeBranch branchName with
        | .error err => ⟨.error err, outputs, tr⟩
        | .ok commitHash =>
          if cfg.CreateGitRelease then
            match releaseInfo with
            | none => ⟨.panic, outputs, tr⟩
            | some releaseInfo =>
              match c.CreateRelease releaseInfo with
              | some err => ⟨.error err, outputs, tr ++ [.CreateRelease releaseInfo]⟩
              | none =>
                ⟨.ok, outputs.insert "commit_hash" commitHash,
                  tr ++ [.CreateRelease releaseInfo]⟩
          else ⟨.ok, outputs.insert "commit_hash" commitHash, tr⟩
    | .unknown => ⟨.ok, outputs, []⟩

/-- The function `finalize`, lines 134-189. The deferred function of lines
140-146 runs when the body has ended, whether it returned or panicked: it
stores the branch name and flushes the outputs. `outputs` is a map that is
not nil: the caller has written to it on line 58. -/
def finalize (cfg : Config) (c : Collab) (outputs : Outputs) (branchName : String)
    (anythingRegenerated : Bool) : FinalizeResult :=
  match c.FindBranch branchName with
  | .error err => ⟨.error err, outputs, [.FindBranch branchName]⟩
  | .ok found =>
    let body := finalizeBody cfg c outputs found anythingRegenerated
    let flushed := body.outputs.insert "branch_name" found
    ⟨body.outcome, flushed,
      .FindBranch branchName :: body.trace ++ .setOutputs flushed ::
        debugIfError "failed to set outputs: " (c.setOutputs flushed)⟩

/-! ## `RunWorkflow`, lines 15-131 -/

/-- Lines 16-46: the run context, the generator version and its floor, and
the working branch. On success the result is `(resolvedVersion, branchName)`.
No `defer` is registered yet when one of these steps returns an error. -/
def resolveVersionAndBranch (cfg : Config) (c : Collab) :
    Except GoError (String × String) × List Event :=
  match c.initAction with
  | some err => (.error err, [.initAction])
  | none =>
    match c.Download cfg.GetPinnedSpeakeasyVersion with
    | .error err => (.error err, [.initAction, .Download cfg.GetPinnedSpeakeasyVersion])
    | .ok resolvedVersion =>
      let tr := [.initAction, .Download cfg.GetPinnedSpeakeasyVersion, .IsAtLeastVersion]
      if !c.IsAtLeastVersion then
        (.error "action requires at least version 1.161.0 of the speakeasy CLI", tr)
      else
        match cfg.GetMode with
        | .ModePR =>
          let tr := tr ++ [.FindExistingPR "" .ActionRunWorkflow]
          match c.FindExistingPR "" .ActionRunWorkflow with
          | .error err => (.error err, tr)
          | .ok found =>
            let tr := tr ++ [.FindOrCreateBranch found.1 .ActionRunWorkflow]
            match c.FindOrCreateBranch found.1 .ActionRunWorkflow with
            | .error err => (.error err, tr)
            | .ok branchName => (.ok (resolvedVersion, branchName), tr)
        | _ =>
          let tr := tr ++ [.FindOrCreateBranch "" .ActionRunWorkflow]
          match c.FindOrCreateBranch "" .ActionRunWorkflow with
          | .error err => (.error err, tr)
          | .ok branchName => (.ok (resolvedVersion, branchName), tr)

/-- What lines 57-130 leave behind: the variable `success`, how the body
ended and the calls it made. -/
structure BodyResult where
  success : Bool
  outcome : Outcome
  trace : List Event

/-- Lines 124-130: the call of `finalize`, then `success = true`. `before` is
the trace of the body up to line 124. -/
def finalizeAndSucceed (cfg : Config) (c : Collab) (outputs : Outputs) (branchName : String)
    (anythingRegenerated : Bool) (before : List Event) : BodyResult :=
  match (finalize cfg c outputs branchName anythingRegenerated).outcome with
  | .ok => ⟨true, .ok, before ++ (finalize cfg c outputs branchName anythingRegenerated).trace⟩
  | .error err =>
    ⟨false, .error err, before ++ (finalize cfg c outputs branchName anythingRegenerated).trace⟩
  | .panic =>
    ⟨false, .panic, before ++ (finalize cfg c outputs branchName anythingRegenerated).trace⟩

/-- Lines 57-130, the body of `RunWorkflow` after the `defer` statement.
Line 58 assigns into the map `run.Run` returned, which panics on the nil
map. -/
def runBody (cfg : Config) (c : Collab) (resolvedVersion branchName : String) : BodyResult :=
  match c.Run with
  | (_, none, _) => ⟨false, .panic, [.Run]⟩
  | (genInfo, some returned, err) =>
    let outputs := returned.insert "resolved_speakeasy_version" resolvedVersion
    match err with
    | some err =>
      ⟨false, .error err,
        .Run :: .setOutputs outputs ::
          debugIfError "failed to set outputs: " (c.setOutputs outputs)⟩
    | none =>
      match genInfo with
      | none => finalizeAndSucceed cfg c outputs branchName false [.Run]
      | some genInfo =>
        match c.GetSupportedLanguages with
        | .error err => ⟨false, .error err, [.Run, .GetSupportedLanguages]⟩
        | .ok supportedLanguages =>
          let st := aggregate cfg.GetInvokeTime cfg.GetOpenAPIDocLocation genInfo outputs
            supportedLanguages
          match c.getReleasesDir .RunWorkflow with
          | .error err => ⟨false, .error err, [.Run, .GetSupportedLanguages, .getReleasesDir]⟩
          | .ok releasesDir =>
            let tr := [.Run, .GetSupportedLanguages, .getReleasesDir,
              .UpdateReleasesFile st.releaseInfo releasesDir]
            match c.UpdateReleasesFile st.releaseInfo releasesDir with
            | some err => ⟨false, .error err, tr⟩
            | none =>
              let tr := tr ++ [.CommitAndPush genInfo.OpenAPIDocVersion
                genInfo.SpeakeasyVersion "" .ActionRunWorkflow]
              match c.CommitAndPush genInfo.OpenAPIDocVersion genInfo.SpeakeasyVersion ""
                  .ActionRunWorkflow with
              | .error err => ⟨false, .error err, tr⟩
              | .ok _ =>
                finalizeAndSucceed cfg c outputs branchName st.anythingRegenerated tr

/-- The deferred function of lines 49-55; it runs when the body has ended,
whether it returned or panicked. -/
def deferredCleanup (cfg : Config) (c : Collab) (success : Bool) (branchName : String) :
    List Event :=
  if (!success || cfg.GetMode == .ModeDirect) && !cfg.IsDebugMode then
    .DeleteBranch branchName ::
      debugIfError ("failed to delete branch " ++ branchName ++ ": ") (c.DeleteBranch branchName)
  else []

/-- What a run of `RunWorkflow` leaves behind: how it ended and the calls it
made, in order. -/
structure RunResult where
  outcome : Outcome
  trace : List Event

/-- The function `RunWorkflow`, lines 15-131. -/
def RunWorkflow (cfg : Config) (c : Collab) : RunResult :=
  match (resolveVersionAndBranch cfg c).1 with
  | .error err => ⟨.error err, (resolveVersionAndBranch cfg c).2⟩
  | .ok (resolvedVersion, branchName) =>
    let body := runBody cfg c resolvedVersion branchName
    ⟨body.outcome,
      (resolveVersionAndBranch cfg c).2 ++ body.trace ++
        deferredCleanup cfg c body.success branchName⟩

/-! ## Auxiliary definitions for the statements -/

/-- The entry lines 95-98 store under `lang` when the test of line 90 passes,
and `none` when it fails. -/
def generatedEntry (genInfo : run.GenerationInfo) (outputs : Outputs) (lang : String) :
    Option releases.GenerationInfo :=
  if outputs (lang ++ "_regenerated") = some "true" then
    (genInfo.Languages lang).map fun i =>
      { Version := i.Version, Path := (outputs (lang ++ "_directory")).getD "" }
  else none

/-- The entry lines 101-105 store under `lang` when the tests of lines 90 and
100 pass, and `none` when one of them fails. -/
def publishedEntry (genInfo : run.GenerationInfo) (outputs : Outputs) (lang : String) :
    Option releases.LanguageReleaseInfo :=
  if outputs (lang ++ "_regenerated") = some "true" ∧
      outputs ("publish_" ++ lang) = some "true" then
    (genInfo.Languages lang).map fun i =>
      { PackageName := i.PackageName, Version := i.Version
        Path := (outputs (lang ++ "_directory")).getD "" }
  else none

/-- The event is a call lines 66-189 can make: aggregation, persistence or
`finalize`. -/
def Event.isAfterGeneration : Event → Bool
  | .GetSupportedLanguages => true
  | .getReleasesDir => true
  | .UpdateReleasesFile _ _ => true
  | .CommitAndPush _ _ _ _ => true
  | .FindBranch _ => true
  | .FindExistingPR _ .ActionFinalize => true
  | .GetLastReleaseInfo _ => true
  | .CreateOrUpdatePR _ _ _ _ => true
  | .MergeBranch _ => true
  | .CreateRelease _ => true
  | _ => false

/-- The event is a call lines 153-186 of `finalize` can make: `FindExistingPR`,
`getReleasesInfo` (its two calls), `CreateOrUpdatePR`, `MergeBranch` or
`CreateRelease`. -/
def Event.isFinalizeAction : Event → Bool
  | .FindExistingPR _ _ => true
  | .getReleasesDir => true
  | .GetLastReleaseInfo _ => true
  | .CreateOrUpdatePR _ _ _ _ => true
  | .MergeBranch _ => true
  | .CreateRelease _ => true
  | _ => false

/-! ## Concrete runs -/

/-- A configuration in PR mode with debug mode disabled. -/
def cfgPR : Config where
  GetMode := .ModePR
  IsDebugMode := false
  CreateGitRelease := false
  GetPinnedSpeakeasyVersion := "latest"
  GetInvokeTime := "2023-06-01 12:00:00"
  GetOpenAPIDocLocation := "openapi.yaml"
  GetPreviousGenVersion := ""

/-- A configuration in Direct mode with debug mode disabled. -/
def cfgDirect : Config := { cfgPR with GetMode := .ModeDirect }

/-- A generation info that knows the language `python`. -/
def pythonGenInfo : run.GenerationInfo where
  OpenAPIDocVersion := "1.0.0"
  SpeakeasyVersion := "1.161.0"
  GenerationVersion := "2.0.0"
  Languages := GoMap.insert GoMap.empty "python" { Version := "0.1.0", PackageName := "petstore" }

/-- Raw outputs in which `python` is regenerated and flagged for publication. -/
def pythonOutputs : Outputs :=
  ((GoMap.empty.insert "python_regenerated" "true").insert "python_directory"
    "out/python").insert "publish_python" "true"

/-- Collaborators that all succeed; the generator returns a generation info
and outputs without any key, so no language is regenerated. -/
def collabQuiet : Collab where
  initAction := none
  Download := fun _ => .ok "1.161.0"
  IsAtLeastVersion := true
  FindExistingPR := fun b _ => .ok (b, none)
  FindOrCreateBranch := fun _ _ => .ok "speakeasy-sdk-regen-1"
  Run := (some pythonGenInfo, some GoMap.empty, none)
  setOutputs := fun _ => none
  GetSupportedLanguages := .ok ["go", "python", "typescript"]
  getReleasesDir := fun _ => .ok "."
  UpdateReleasesFile := fun _ _ => none
  CommitAndPush := fun _ _ _ _ => .ok "abc123"
  FindBranch := fun b => .ok b
  GetLastReleaseInfo := fun _ => .ok none
  CreateOrUpdatePR := fun _ _ _ _ => none
  MergeBranch := fun _ => .ok "def456"
  CreateRelease := fun _ => none
  DeleteBranch := fun _ => none

/-- As `collabQuiet`, but `initAction` fails. -/
def collabInitFails : Collab := { collabQuiet with initAction := some "init failed" }

/-- As `collabQuiet`, but `FindOrCreateBranch` fails. -/
def collabBranchFails : Collab :=
  { collabQuiet with FindOrCreateBranch := fun _ _ => .error "cannot create branch" }

/-- As `collabQuiet`, but the generator fails, returning its outputs. -/
def collabGeneratorFails : Collab :=
  { collabQuiet with Run := (none, some GoMap.empty, some "generation failed") }

/-- As `collabQuiet`, but `cli.GetSupportedLanguages` fails. -/
def collabLanguagesFail : Collab :=
  { collabQuiet with GetSupportedLanguages := .error "cannot list languages" }

/-- As `collabQuiet`, but `CommitAndPush` fails. -/
def collabPushFails : Collab :=
  { collabQuiet with CommitAndPush := fun _ _ _ _ => .error "push rejected" }

/-! ## Lemmas on the aggregation loop -/

theorem GoMap.index_eq_true (m : GoMap String) (k : String) :
    m.index k = "true" ↔ m k = some "true" := by
  unfold GoMap.index
  cases h : m k with
  | none => simp
  | some v => simp

theorem loopBody_generated (G : run.GenerationInfo) (O : Outputs) (st : AggState) (x l : String) :
    (loopBody G O st x).releaseInfo.LanguagesGenerated l =
      if l = x then (generatedEntry G O x).orElse (fun _ => st.releaseInfo.LanguagesGenerated l)
      else st.releaseInfo.LanguagesGenerated l := by
  unfold loopBody generatedEntry
  cases hG : G.Languages x with
  | none => by_cases h : l = x <;> simp [h]
  | some i =>
    by_cases hr : O (x ++ "_regenerated") = some "true"
    · by_cases h : l = x <;> simp [hr, h, GoMap.index_eq_true, GoMap.insert, GoMap.index]
    · by_cases h : l = x <;> simp [hr, h, GoMap.index_eq_true]

theorem loopBody_published (G : run.GenerationInfo) (O : Outputs) (st : AggState) (x l : String) :
    (loopBody G O st x).releaseInfo.Languages l =
      if l = x then (publishedEntry G O x).orElse (fun _ => st.releaseInfo.Languages l)
      else st.releaseInfo.Languages l := by
  unfold loopBody publishedEntry
  cases hG : G.Languages x with
  | none => by_cases h : l = x <;> simp [h]
  | some i =>
    by_cases hr : O (x ++ "_regenerated") = some "true"
    · cases hp : O ("publish_" ++ x) with
      | none => by_cases h : l = x <;> simp [hr, h, hp, GoMap.index_eq_true]
      | some p =>
        by_cases hpt : p = "true"
        · by_cases h : l = x <;> simp [hr, h, hp, hpt, GoMap.index_eq_true, GoMap.insert, GoMap.index]
        · by_cases h : l = x <;> simp [hr, h, hp, hpt, GoMap.index_eq_true]
    · by_cases h : l = x <;> simp [hr, h, GoMap.index_eq_true]

theorem loopBody_flag (G : run.GenerationInfo) (O : Outputs) (st : AggState) (x : String) :
    (loopBody G O st x).anythingRegenerated =
      (st.anythingRegenerated || (generatedEntry G O x).isSome) := by
  unfold loopBody generatedEntry
  cases hG : G.Languages x with
  | none => simp
  | some i =>
    by_cases hr : O (x ++ "_regenerated") = some "true" <;> simp [hr, GoMap.index_eq_true]

theorem loopBody_fixed (G : run.GenerationInfo) (O : Outputs) (st : AggState) (x : String) :
    (loopBody G O st x).releaseInfo.ReleaseTitle = st.releaseInfo.ReleaseTitle ∧
    (loopBody G O st x).releaseInfo.DocVersion = st.releaseInfo.DocVersion ∧
    (loopBody G O st x).releaseInfo.SpeakeasyVersion = st.releaseInfo.SpeakeasyVersion ∧
    (loopBody G O st x).releaseInfo.GenerationVersion = st.releaseInfo.GenerationVersion ∧
    (loopBody G O st x).releaseInfo.DocLocation = st.releaseInfo.DocLocation := by
  unfold loopBody
  cases hG : G.Languages x with
  | none => simp
  | some i =>
    by_cases hr : O.index (x ++ "_regenerated") = "true" <;> simp [hr]

theorem foldl_generated (G : run.GenerationInfo) (O : Outputs) (L : List String) :
    ∀ (st : AggState) (l : String),
      (L.foldl (loopBody G O) st).releaseInfo.LanguagesGenerated l =
        if l ∈ L then (generatedEntry G O l).orElse (fun _ => st.releaseInfo.LanguagesGenerated l)
        else st.releaseInfo.LanguagesGenerated l := by
  induction L with
  | nil => intro st l; simp
  | cons x xs ih =>
    intro st l
    rw [List.foldl_cons, ih, loopBody_generated]
    by_cases hx : l = x
    · subst hx
      by_cases hm : l ∈ xs <;> cases generatedEntry G O l <;> simp [hm]
    · by_cases hm : l ∈ xs <;> simp [hx, hm]

theorem foldl_published (G : run.GenerationInfo) (O : Outputs) (L : List String) :
    ∀ (st : AggState) (l : String),
      (L.foldl (loopBody G O) st).releaseInfo.Languages l =
        if l ∈ L then (publishedEntry G O l).orElse (fun _ => st.releaseInfo.Languages l)
        else st.releaseInfo.Languages l := by
  induction L with
  | nil => intro st l; simp
  | cons x xs ih =>
    intro st l
    rw [List.foldl_cons, ih, loopBody_published]
    by_cases hx : l = x
    · subst hx
      by_cases hm : l ∈ xs <;> cases publishedEntry G O l <;> simp [hm]
    · by_cases hm : l ∈ xs <;> simp [hx, hm]

theorem foldl_flag (G : run.GenerationInfo) (O : Outputs) (L : List String) :
    ∀ st : AggState,
      (L.foldl (loopBody G O) st).anythingRegenerated =
        (st.anythingRegenerated || L.any fun l => (generatedEntry G O l).isSome) := by
  induction L with
  | nil => intro st; simp
  | cons x xs ih =>
    intro st
    rw [List.foldl_cons, ih, loopBody_flag, List.any_cons, Bool.or_assoc]

theorem foldl_fixed (G : run.GenerationInfo) (O : Outputs) (L : List String) :
    ∀ st : AggState,
      (L.foldl (loopBody G O) st).releaseInfo.ReleaseTitle = st.releaseInfo.ReleaseTitle ∧
      (L.foldl (loopBody G O) st).releaseInfo.DocVersion = st.releaseInfo.DocVersion ∧
      (L.foldl (loopBody G O) st).releaseInfo.SpeakeasyVersion = st.releaseInfo.SpeakeasyVersion ∧
      (L.foldl (loopBody G O) st).releaseInfo.GenerationVersion =
        st.releaseInfo.GenerationVersion ∧
      (L.foldl (loopBody G O) st).releaseInfo.DocLocation = st.releaseInfo.DocLocation := by
  induction L with
  | nil => intro st; simp
  | cons x xs ih =>
    intro st
    rw [List.foldl_cons]
    obtain ⟨h1, h2, h3, h4, h5⟩ := ih (loopBody G O st x)
    obtain ⟨k1, k2, k3, k4, k5⟩ := loopBody_fixed G O st x
    exact ⟨h1.trans k1, h2.trans k2, h3.trans k3, h4.trans k4, h5.trans k5⟩

theorem aggregate_generated (t d : String) (G : run.GenerationInfo) (O : Outputs)
    (L : List String) (l : String) :
    (aggregate t d G O L).releaseInfo.LanguagesGenerated l =
      if l ∈ L then generatedEntry G O l else none := by
  unfold aggregate
  rw [foldl_generated]
  by_cases hm : l ∈ L <;> cases generatedEntry G O l <;> simp [hm, newReleaseInfo, GoMap.empty]

theorem aggregate_published (t d : String) (G : run.GenerationInfo) (O : Outputs)
    (L : List String) (l : String) :
    (aggregate t d G O L).releaseInfo.Languages l =
      if l ∈ L then publishedEntry G O l else none := by
  unfold aggregate
  rw [foldl_published]
  by_cases hm : l ∈ L <;> cases publishedEntry G O l <;> simp [hm, newReleaseInfo, GoMap.empty]

theorem aggregate_flag (t d : String) (G : run.GenerationInfo) (O : Outputs)
    (L : List String) :
    (aggregate t d G O L).anythingRegenerated =
      L.any fun l => (generatedEntry G O l).isSome := by
  unfold aggregate
  rw [foldl_flag]
  simp

/-! ## Lemmas on the traces -/

theorem debugIfError_countP (p : Event → Bool) (hp : ∀ m, p (.Debug m) = false)
    (message : String) (r : Option GoError) :
    (debugIfError message r).countP p = 0 := by
  cases r <;> simp [debugIfError, hp]

theorem getReleasesInfo_countP (p : Event → Bool) (h1 : p .getReleasesDir = false)
    (h2 : ∀ d, p (.GetLastReleaseInfo d) = false) (c : Collab) :
    (getReleasesInfo c).2.countP p = 0 := by
  unfold getReleasesInfo
  split
  · simp [h1]
  · split <;> simp [h1, h2]

theorem finalizeBody_countP (p : Event → Bool) (h1 : p .getReleasesDir = false)
    (h2 : ∀ d, p (.GetLastReleaseInfo d) = false) (h3 : ∀ x a, p (.FindExistingPR x a) = false)
    (h4 : ∀ x r y z, p (.CreateOrUpdatePR x r y z) = false)
    (h5 : ∀ x, p (.MergeBranch x) = false) (h6 : ∀ r, p (.CreateRelease r) = false)
    (cfg : Config) (c : Collab) (o : Outputs) (b : String) (a : Bool) :
    (finalizeBody cfg c o b a).trace.countP p = 0 := by
  have hr := getReleasesInfo_countP p h1 h2 c
  unfold finalizeBody
  repeat' split
  all_goals simp [hr, h3, h4, h5, h6]

theorem finalize_countP (p : Event → Bool) (h1 : p .getReleasesDir = false)
    (h2 : ∀ d, p (.GetLastReleaseInfo d) = false) (h3 : ∀ x a, p (.FindExistingPR x a) = false)
    (h4 : ∀ x r y z, p (.CreateOrUpdatePR x r y z) = false)
    (h5 : ∀ x, p (.MergeBranch x) = false) (h6 : ∀ r, p (.CreateRelease r) = false)
    (h7 : ∀ x, p (.FindBranch x) = false) (h8 : ∀ x, p (.setOutputs x) = false)
    (h9 : ∀ m, p (.Debug m) = false)
    (cfg : Config) (c : Collab) (o : Outputs) (b : String) (a : Bool) :
    (finalize cfg c o b a).trace.countP p = 0 := by
  have hb := fun b' => finalizeBody_countP p h1 h2 h3 h4 h5 h6 cfg c o b' a
  have hd := debugIfError_countP p h9
  unfold finalize
  split
  · simp [h7]
  · simp [hb, hd, h7, h8]

theorem deferredCleanup_countP (p : Event → Bool) (h1 : ∀ x, p (.DeleteBranch x) = false)
    (h2 : ∀ m, p (.Debug m) = false) (cfg : Config) (c : Collab) (s : Bool) (b : String) :
    (deferredCleanup cfg c s b).countP p = 0 := by
  have hd := debugIfError_countP p h2
  unfold deferredCleanup
  split <;> simp [h1, hd]

theorem filter_eq_nil_of_countP {p : Event → Bool} {l : List Event} (h : l.countP p = 0) :
    l.filter p = [] := by
  rw [List.filter_eq_nil_iff]
  intro a ha
  simpa using (List.countP_eq_zero.mp h) a ha

theorem not_mem_of_countP {p : Event → Bool} {l : List Event} (h : l.countP p = 0)
    (e : Event) (he : p e = true) : e ∉ l := by
  intro hm
  exact (List.countP_eq_zero.mp h) e hm he

theorem finalize_countP_deleteBranch (cfg : Config) (c : Collab) (o : Outputs) (b : String)
    (a : Bool) : (finalize cfg c o b a).trace.countP Event.isDeleteBranch = 0 :=
  finalize_countP Event.isDeleteBranch rfl (fun _ => rfl) (fun _ _ => rfl) (fun _ _ _ _ => rfl)
    (fun _ => rfl) (fun _ => rfl) (fun _ => rfl) (fun _ => rfl) (fun _ => rfl) cfg c o b a

theorem finalizeAndSucceed_trace (cfg : Config) (c : Collab) (o : Outputs) (b : String)
    (a : Bool) (before : List Event) :
    (finalizeAndSucceed cfg c o b a before).trace = before ++ (finalize cfg c o b a).trace := by
  unfold finalizeAndSucceed
  split <;> rfl

theorem finalizeAndSucceed_success (cfg : Config) (c : Collab) (o : Outputs) (b : String)
    (a : Bool) (before : List Event) :
    (finalizeAndSucceed cfg c o b a before).success = true ↔
      (finalizeAndSucceed cfg c o b a before).outcome = .ok := by
  unfold finalizeAndSucceed
  split <;> simp

theorem runBody_success (cfg : Config) (c : Collab) (v b : String) :
    (runBody cfg c v b).success = true ↔ (runBody cfg c v b).outcome = .ok := by
  unfold runBody
  repeat' split
  all_goals first
    | exact finalizeAndSucceed_success _ _ _ _ _ _
    | simp; done
    | (dsimp only; split <;> first | exact finalizeAndSucceed_success _ _ _ _ _ _ | simp)

theorem runBody_countP_deleteBranch (cfg : Config) (c : Collab) (v b : String) :
    (runBody cfg c v b).trace.countP Event.isDeleteBranch = 0 := by
  have hf := finalize_countP_deleteBranch cfg c
  have hd := debugIfError_countP Event.isDeleteBranch (fun _ => rfl)
  unfold runBody
  repeat' split
  all_goals first
    | simp [finalizeAndSucceed_trace, hf, hd, Event.isDeleteBranch]; done
    | (dsimp only; split <;> simp [finalizeAndSucceed_trace, hf, hd, Event.isDeleteBranch])

theorem resolve_countP (p : Event → Bool) (h1 : p .initAction = false)
    (h2 : ∀ x, p (.Download x) = false) (h3 : p .IsAtLeastVersion = false)
    (h4 : p (.FindExistingPR "" .ActionRunWorkflow) = false)
    (h5 : ∀ x, p (.FindOrCreateBranch x .ActionRunWorkflow) = false) (cfg : Config)
    (c : Collab) :
    (resolveVersionAndBranch cfg c).2.countP p = 0 := by
  unfold resolveVersionAndBranch
  repeat' split
  all_goals simp [h1, h2, h3, h4, h5]

theorem RunWorkflow_resolved (cfg : Config) (c : Collab) (v b : String)
    (h : (resolveVersionAndBranch cfg c).1 = .ok (v, b)) :
    RunWorkflow cfg c =
      ⟨(runBody cfg c v b).outcome,
        (resolveVersionAndBranch cfg c).2 ++ (runBody cfg c v b).trace ++
          deferredCleanup cfg c (runBody cfg c v b).success b⟩ := by
  unfold RunWorkflow
  rw [h]

theorem RunWorkflow_unresolved (cfg : Config) (c : Collab) (err : GoError)
    (h : (resolveVersionAndBranch cfg c).1 = .error err) :
    RunWorkflow cfg c = ⟨.error err, (resolveVersionAndBranch cfg c).2⟩ := by
  unfold RunWorkflow
  rw [h]

theorem debugIfError_filter_isGit (message : String) (r : Option GoError) :
    (debugIfError message r).filter Event.isGit = [] := by
  cases r <;> simp [debugIfError, Event.isGit]

theorem deferredCleanup_eq (cfg : Config) (c : Collab) (success : Bool) (b : String) :
    deferredCleanup cfg c success b =
      if cfg.IsDebugMode = false ∧ (success = false ∨ cfg.GetMode = .ModeDirect) then
        .DeleteBranch b ::
          debugIfError ("failed to delete branch " ++ b ++ ": ") (c.DeleteBranch b)
      else [] := by
  unfold deferredCleanup
  cases success <;> cases cfg.IsDebugMode <;> cases cfg.GetMode <;> simp

theorem RunWorkflow_cleanup (cfg : Config) (c : Collab) (v b : String)
    (h : (resolveVersionAndBranch cfg c).1 = .ok (v, b)) :
    (RunWorkflow cfg c).trace =
      (resolveVersionAndBranch cfg c).2 ++ (runBody cfg c v b).trace ++
        if cfg.IsDebugMode = false ∧
            ((RunWorkflow cfg c).outcome ≠ .ok ∨ cfg.GetMode = .ModeDirect) then
          .DeleteBranch b ::
            debugIfError ("failed to delete branch " ++ b ++ ": ") (c.DeleteBranch b)
        else [] := by
  rw [RunWorkflow_resolved cfg c v b h, deferredCleanup_eq]
  have hs := runBody_success cfg c v b
  have : ((runBody cfg c v b).success = false) = ((runBody cfg c v b).outcome ≠ .ok) := by
    apply propext; rw [Ne, ← hs]; simp
  simp only [this]

theorem runBody_mem_update (cfg : Config) (c : Collab) (v b : String)
    (r : releases.ReleasesInfo) (d : String) :
    Event.UpdateReleasesFile r d ∈ (runBody cfg c v b).trace ↔
      ∃ G o L, c.Run = (some G, some o, none) ∧ c.GetSupportedLanguages = .ok L ∧
        c.getReleasesDir .RunWorkflow = .ok d ∧
        r = (aggregate cfg.GetInvokeTime cfg.GetOpenAPIDocLocation G
          (o.insert "resolved_speakeasy_version" v) L).releaseInfo := by
  have hf := fun o a => not_mem_of_countP
    (finalize_countP Event.isUpdateReleasesFile rfl (fun _ => rfl) (fun _ _ => rfl)
      (fun _ _ _ _ => rfl) (fun _ => rfl) (fun _ => rfl) (fun _ => rfl) (fun _ => rfl)
      (fun _ => rfl) cfg c o b a) (.UpdateReleasesFile r d) rfl
  have hd := fun m x => not_mem_of_countP
    (debugIfError_countP Event.isUpdateReleasesFile (fun _ => rfl) m x)
    (.UpdateReleasesFile r d) rfl
  rcases hR : c.Run with ⟨gi, o, e⟩
  cases o with
  | none => simp [runBody, hR]
  | some o =>
    cases e with
    | some e => simp [runBody, hR, hd]
    | none =>
      cases gi with
      | none => simp [runBody, hR, finalizeAndSucceed_trace, hf]
      | some G =>
        cases hS : c.GetSupportedLanguages with
        | error e => simp [runBody, hR, hS]
        | ok L =>
          cases hD : c.getReleasesDir .RunWorkflow with
          | error e => simp [runBody, hR, hS, hD]
          | ok d0 =>
            cases hU : c.UpdateReleasesFile (aggregate cfg.GetInvokeTime
                cfg.GetOpenAPIDocLocation G (o.insert "resolved_speakeasy_version" v)
                L).releaseInfo d0 with
            | some e =>
              simp [runBody, hR, hS, hD, hU]
              constructor
              · rintro ⟨h1, h2⟩; exact ⟨G, o, ⟨rfl, rfl⟩, h2.symm, h1⟩
              · rintro ⟨G', o', ⟨rfl, rfl⟩, h1, h2⟩; exact ⟨h2, h1.symm⟩
            | none =>
              cases hC : c.CommitAndPush G.OpenAPIDocVersion G.SpeakeasyVersion ""
                  .ActionRunWorkflow with
              | error e =>
                simp [runBody, hR, hS, hD, hU, hC]
                constructor
                · rintro ⟨h1, h2⟩; exact ⟨G, o, ⟨rfl, rfl⟩, h2.symm, h1⟩
                · rintro ⟨G', o', ⟨rfl, rfl⟩, h1, h2⟩; exact ⟨h2, h1.symm⟩
              | ok _ =>
                simp [runBody, hR, hS, hD, hU, hC, finalizeAndSucceed_trace, hf]
                constructor
                · rintro ⟨h1, h2⟩; exact ⟨G, o, ⟨rfl, rfl⟩, h2.symm, h1⟩
                · rintro ⟨G', o', ⟨rfl, rfl⟩, h1, h2⟩; exact ⟨h2, h1.symm⟩

theorem regenerated_key_ne (l : String) : l ++ "_regenerated" ≠ "resolved_speakeasy_version" := by
  intro h
  have h2 := congrArg (fun s : String => s.data.getLast?) h
  simp [String.data_append] at h2

theorem finalize_false (cfg : Config) (c : Collab) (o : Outputs) (b found : String)
    (h : c.FindBranch b = .ok found) :
    finalize cfg c o b false =
      ⟨.ok, o.insert "branch_name" found,
        .FindBranch b :: .setOutputs (o.insert "branch_name" found) ::
          debugIfError "failed to set outputs: " (c.setOutputs (o.insert "branch_name" found))⟩ := by
  simp [finalize, h, finalizeBody]

/-! ## The aggregation loop: claims C2, C3 and C10 -/

theorem aggregate_congr (t d : String) (G : run.GenerationInfo) (O : Outputs)
    (L1 L2 : List String) (h : ∀ l, l ∈ L1 ↔ l ∈ L2) :
    aggregate t d G O L1 = aggregate t d G O L2 := by
  have hg : (aggregate t d G O L1).releaseInfo.LanguagesGenerated =
      (aggregate t d G O L2).releaseInfo.LanguagesGenerated := by
    funext l
    rw [aggregate_generated, aggregate_generated]
    simp only [h l]
  have hp : (aggregate t d G O L1).releaseInfo.Languages =
      (aggregate t d G O L2).releaseInfo.Languages := by
    funext l
    rw [aggregate_published, aggregate_published]
    simp only [h l]
  have hf : (aggregate t d G O L1).anythingRegenerated =
      (aggregate t d G O L2).anythingRegenerated := by
    rw [aggregate_flag, aggregate_flag, Bool.eq_iff_iff]
    simp only [List.any_eq_true]
    constructor
    · rintro ⟨l, hl, hs⟩; exact ⟨l, (h l).mp hl, hs⟩
    · rintro ⟨l, hl, hs⟩; exact ⟨l, (h l).mpr hl, hs⟩
  obtain ⟨a1, a2, a3, a4, a5⟩ := foldl_fixed G O L1
    { releaseInfo := newReleaseInfo t d G, anythingRegenerated := false }
  obtain ⟨b1, b2, b3, b4, b5⟩ := foldl_fixed G O L2
    { releaseInfo := newReleaseInfo t d G, anythingRegenerated := false }
  have e1 := a1.trans b1.symm
  have e2 := a2.trans b2.symm
  have e3 := a3.trans b3.symm
  have e4 := a4.trans b4.symm
  have e5 := a5.trans b5.symm
  change (aggregate t d G O L1).releaseInfo.ReleaseTitle = _ at e1
  change (aggregate t d G O L1).releaseInfo.DocVersion = _ at e2
  change (aggregate t d G O L1).releaseInfo.SpeakeasyVersion = _ at e3
  change (aggregate t d G O L1).releaseInfo.GenerationVersion = _ at e4
  change (aggregate t d G O L1).releaseInfo.DocLocation = _ at e5
  change _ = (aggregate t d G O L2).releaseInfo.ReleaseTitle at e1
  change _ = (aggregate t d G O L2).releaseInfo.DocVersion at e2
  change _ = (aggregate t d G O L2).releaseInfo.SpeakeasyVersion at e3
  change _ = (aggregate t d G O L2).releaseInfo.GenerationVersion at e4
  change _ = (aggregate t d G O L2).releaseInfo.DocLocation at e5
  generalize aggregate t d G O L1 = s1 at *
  generalize aggregate t d G O L2 = s2 at *
  obtain ⟨⟨x1, x2, x3, x4, x5, x6, x7⟩, x8⟩ := s1
  obtain ⟨⟨y1, y2, y3, y4, y5, y6, y7⟩, y8⟩ := s2
  simp only at hg hp hf e1 e2 e3 e4 e5
  subst hg hp hf e1 e2 e3 e4 e5
  rfl

/-- Claim C2: for every generation info `G`, raw outputs `O` and
supported-language list `L`, the map `LanguagesGenerated` the aggregation loop
builds has an entry for `l` exactly when `l` is in `L`, `l` is a key of
`G.Languages` and `O[l + "_regenerated"]` is `"true"`; the entry is
`{Version: G.Languages[l].Version, Path: O[l + "_directory"]}`, the path being
empty when that key is absent; and `anythingRegenerated` is true exactly when
`LanguagesGenerated` has an entry. -/
theorem aggregate_languagesGenerated (t d : String) (G : run.GenerationInfo) (O : Outputs)
    (L : List String) :
    (∀ l, ((aggregate t d G O L).releaseInfo.LanguagesGenerated l).isSome = true ↔
      l ∈ L ∧ (G.Languages l).isSome = true ∧ O (l ++ "_regenerated") = some "true") ∧
    (∀ l, (aggregate t d G O L).releaseInfo.LanguagesGenerated l =
      if l ∈ L ∧ O (l ++ "_regenerated") = some "true" then
        (G.Languages l).map fun i =>
          { Version := i.Version, Path := (O (l ++ "_directory")).getD "" }
      else none) ∧
    ((aggregate t d G O L).anythingRegenerated = true ↔
      ∃ l, ((aggregate t d G O L).releaseInfo.LanguagesGenerated l).isSome = true) := by
  refine ⟨?_, ?_, ?_⟩
  · intro l
    rw [aggregate_generated]
    unfold generatedEntry
    by_cases hm : l ∈ L <;> by_cases hr : O (l ++ "_regenerated") = some "true" <;>
      simp [hm, hr]
  · intro l
    rw [aggregate_generated]
    unfold generatedEntry
    by_cases hm : l ∈ L <;> by_cases hr : O (l ++ "_regenerated") = some "true" <;>
      simp [hm, hr]
  · rw [aggregate_flag, List.any_eq_true]
    constructor
    · rintro ⟨l, hl, hs⟩
      refine ⟨l, ?_⟩
      rw [aggregate_generated, if_pos hl]
      exact hs
    · rintro ⟨l, hs⟩
      rw [aggregate_generated] at hs
      by_cases hm : l ∈ L
      · rw [if_pos hm] at hs
        exact ⟨l, hm, hs⟩
      · rw [if_neg hm] at hs
        simp at hs

/-- Claim C3: for every generation info `G`, raw outputs `O` and
supported-language list `L`, the published map `Languages` the aggregation
loop builds is the restriction of `LanguagesGenerated` to the languages `l`
with `O["publish_" + l]` equal to `"true"`: it has an entry for `l` exactly
when `LanguagesGenerated` has one and the publish flag is `"true"`, the entry
is `{PackageName: G.Languages[l].PackageName, Version, Path}` with the version
and path of `LanguagesGenerated[l]`, and every key of the published map is a
key of `LanguagesGenerated`. -/
theorem aggregate_languages_published (t d : String) (G : run.GenerationInfo) (O : Outputs)
    (L : List String) :
    (∀ l, ((aggregate t d G O L).releaseInfo.Languages l).isSome = true ↔
      ((aggregate t d G O L).releaseInfo.LanguagesGenerated l).isSome = true ∧
        O ("publish_" ++ l) = some "true") ∧
    (∀ l, (aggregate t d G O L).releaseInfo.Languages l =
      if O ("publish_" ++ l) = some "true" then
        ((aggregate t d G O L).releaseInfo.LanguagesGenerated l).bind fun g =>
          (G.Languages l).map fun i =>
            { PackageName := i.PackageName, Version := g.Version, Path := g.Path }
      else none) ∧
    (∀ l, ((aggregate t d G O L).releaseInfo.Languages l).isSome = true →
      ((aggregate t d G O L).releaseInfo.LanguagesGenerated l).isSome = true) := by
  have key : ∀ l, ((aggregate t d G O L).releaseInfo.Languages l).isSome = true ↔
      ((aggregate t d G O L).releaseInfo.LanguagesGenerated l).isSome = true ∧
        O ("publish_" ++ l) = some "true" := by
    intro l
    rw [aggregate_published, aggregate_generated]
    unfold publishedEntry generatedEntry
    by_cases hm : l ∈ L <;> by_cases hr : O (l ++ "_regenerated") = some "true" <;>
      by_cases hp : O ("publish_" ++ l) = some "true" <;> simp [hm, hr, hp]
  refine ⟨key, ?_, fun l hl => ((key l).mp hl).1⟩
  intro l
  rw [aggregate_published, aggregate_generated]
  unfold publishedEntry generatedEntry
  by_cases hm : l ∈ L <;> by_cases hr : O (l ++ "_regenerated") = some "true" <;>
    by_cases hp : O ("publish_" ++ l) = some "true" <;>
    cases G.Languages l <;> simp [hm, hr, hp]

/-- Claim C10: for every generation info `G` and raw outputs `O`, two
supported-language lists that are permutations of each other (repeated
entries allowed) give the same result of the aggregation loop: the same
release record, hence equal `LanguagesGenerated` and published `Languages`
maps, and the same `anythingRegenerated` flag. The loop is a function of its
inputs, so a second run on identical inputs yields the identical record. -/
theorem aggregate_perm (t d : String) (G : run.GenerationInfo) (O : Outputs)
    (L1 L2 : List String) (h : L1.Perm L2) :
    (aggregate t d G O L1).releaseInfo.LanguagesGenerated =
      (aggregate t d G O L2).releaseInfo.LanguagesGenerated ∧
    (aggregate t d G O L1).releaseInfo.Languages =
      (aggregate t d G O L2).releaseInfo.Languages ∧
    (aggregate t d G O L1).anythingRegenerated = (aggregate t d G O L2).anythingRegenerated ∧
    aggregate t d G O L1 = aggregate t d G O L2 := by
  have e := aggregate_congr t d G O L1 L2 (fun l => h.mem_iff)
  exact ⟨by rw [e], by rw [e], by rw [e], e⟩

/-- A run of `aggregate_perm` on the lists `go, python, go` and
`python, go, go`. -/
theorem aggregate_perm_witness :
    List.Perm ["go", "python", "go"] ["python", "go", "go"] ∧
    aggregate "2023-06-01 12:00:00" "openapi.yaml" pythonGenInfo pythonOutputs
        ["go", "python", "go"] =
      aggregate "2023-06-01 12:00:00" "openapi.yaml" pythonGenInfo pythonOutputs
        ["python", "go", "go"] :=
  ⟨List.Perm.swap "python" "go" ["go"],
    (aggregate_perm "2023-06-01 12:00:00" "openapi.yaml" pythonGenInfo pythonOutputs
      ["go", "python", "go"] ["python", "go", "go"] (List.Perm.swap "python" "go" ["go"])).2.2.2⟩

/-! ## `finalize`: claim C5 -/

/-- Claim C5: for every call of `finalize` with `anythingRegenerated = false`,
in any operating mode, in which `FindBranch` succeeds with the name `found`:
`finalize` returns no error; its calls are `FindBranch`, then one `setOutputs`
(and the debug log if that flush fails), so none of `FindExistingPR`,
`getReleasesInfo`, `CreateOrUpdatePR`, `MergeBranch` or `CreateRelease` is
invoked and the outputs are flushed exactly once; the flushed outputs are the
input outputs with the key `"branch_name"` set to `found`, every other key, and
`"commit_hash"` among them, being as in the input. -/
theorem finalize_nothing_regenerated (cfg : Config) (c : Collab) (o : Outputs)
    (b found : String) (h : c.FindBranch b = .ok found) :
    (finalize cfg c o b false).outcome = .ok ∧
    (finalize cfg c o b false).trace =
      .FindBranch b :: .setOutputs (o.insert "branch_name" found) ::
        debugIfError "failed to set outputs: " (c.setOutputs (o.insert "branch_name" found)) ∧
    (finalize cfg c o b false).trace.countP Event.isFinalizeAction = 0 ∧
    (finalize cfg c o b false).trace.filter Event.isSetOutputs =
      [.setOutputs (o.insert "branch_name" found)] ∧
    (finalize cfg c o b false).outputs = o.insert "branch_name" found ∧
    (o.insert "branch_name" found) "branch_name" = some found ∧
    (∀ k, k ≠ "branch_name" → (o.insert "branch_name" found) k = o k) ∧
    (o.insert "branch_name" found) "commit_hash" = o "commit_hash" := by
  have hd := debugIfError_countP Event.isFinalizeAction (fun _ => rfl)
  have hs := filter_eq_nil_of_countP
    (debugIfError_countP Event.isSetOutputs (fun _ => rfl) "failed to set outputs: "
      (c.setOutputs (o.insert "branch_name" found)))
  rw [finalize_false cfg c o b found h]
  refine ⟨rfl, rfl, ?_, ?_, rfl, ?_, ?_, ?_⟩
  · simp [hd, Event.isFinalizeAction]
  · simp [List.filter_cons, hs, Event.isSetOutputs]
  · simp [GoMap.insert]
  · intro k hk
    simp [GoMap.insert, hk]
  · simp [GoMap.insert]

/-- The call of `finalize_nothing_regenerated` in Direct mode on the branch
`speakeasy-sdk-regen-1`, with outputs that have no key. -/
theorem finalize_nothing_regenerated_witness :
    collabQuiet.FindBranch "speakeasy-sdk-regen-1" = .ok "speakeasy-sdk-regen-1" ∧
    (finalize cfgDirect collabQuiet GoMap.empty "speakeasy-sdk-regen-1" false).outcome = .ok ∧
    (finalize cfgDirect collabQuiet GoMap.empty "speakeasy-sdk-regen-1"
      false).trace.countP Event.isFinalizeAction = 0 :=
  ⟨rfl,
    (finalize_nothing_regenerated cfgDirect collabQuiet GoMap.empty "speakeasy-sdk-regen-1"
      "speakeasy-sdk-regen-1" rfl).1,
    (finalize_nothing_regenerated cfgDirect collabQuiet GoMap.empty "speakeasy-sdk-regen-1"
      "speakeasy-sdk-regen-1" rfl).2.2.1⟩

/-! ## `RunWorkflow`: claims C1, C4, C6, C7, C8 and C9 -/

theorem RunWorkflow_filter_deleteBranch (cfg : Config) (c : Collab) (v b : String)
    (h : (resolveVersionAndBranch cfg c).1 = .ok (v, b)) :
    (RunWorkflow cfg c).trace.filter Event.isDeleteBranch =
      if cfg.IsDebugMode = false ∧
          ((RunWorkflow cfg c).outcome ≠ .ok ∨ cfg.GetMode = .ModeDirect) then
        [.DeleteBranch b]
      else [] := by
  have hpre := filter_eq_nil_of_countP (resolve_countP Event.isDeleteBranch rfl
    (fun _ => rfl) rfl rfl (fun _ => rfl) cfg c)
  have hbody := filter_eq_nil_of_countP (runBody_countP_deleteBranch cfg c v b)
  have hdbg := fun m r => filter_eq_nil_of_countP
    (debugIfError_countP Event.isDeleteBranch (fun _ => rfl) m r)
  rw [RunWorkflow_cleanup cfg c v b h]
  by_cases hc : cfg.IsDebugMode = false ∧
      ((RunWorkflow cfg c).outcome ≠ .ok ∨ cfg.GetMode = .ModeDirect)
  · rw [if_pos hc, if_pos hc]
    simp [List.filter_append, List.filter_cons, hpre, hbody, hdbg, Event.isDeleteBranch]
  · rw [if_neg hc, if_neg hc]
    simp [List.filter_append, hpre, hbody]

theorem RunWorkflow_last_git (cfg : Config) (c : Collab) (v b : String)
    (h : (resolveVersionAndBranch cfg c).1 = .ok (v, b)) :
    ((RunWorkflow cfg c).trace.filter Event.isGit).getLast? = some (.DeleteBranch b) ↔
      cfg.IsDebugMode = false ∧
        ((RunWorkflow cfg c).outcome ≠ .ok ∨ cfg.GetMode = .ModeDirect) := by
  have hpre := resolve_countP Event.isDeleteBranch rfl (fun _ => rfl) rfl rfl
    (fun _ => rfl) cfg c
  have hbody := runBody_countP_deleteBranch cfg c v b
  have htr := RunWorkflow_cleanup cfg c v b h
  constructor
  · intro hl
    by_contra hc
    rw [htr, if_neg hc, List.append_nil] at hl
    have hm := (List.mem_filter.mp (List.mem_of_getLast?_eq_some hl)).1
    have hz : (((resolveVersionAndBranch cfg c).2 ++ (runBody cfg c v b).trace).countP
        Event.isDeleteBranch) = 0 := by
      simp only [List.countP_append, hpre, hbody]
    exact not_mem_of_countP hz (.DeleteBranch b) rfl hm
  · intro hc
    rw [htr, if_pos hc]
    simp [List.filter_append, List.filter_cons, Event.isGit, debugIfError_filter_isGit]

/-- Claim C7: for every run of `RunWorkflow` that gets past branch resolution
with the working branch `b` (newly created or reused, whatever
`FindOrCreateBranch` answered), `DeleteBranch` is invoked if and only if debug
mode is disabled and (the run did not return nil or the mode is Direct): in
that case it is invoked exactly once, on `b`, and is the last call to the
version-control collaborator; otherwise it is not invoked at all. The value
`RunWorkflow` returns is the same whatever `DeleteBranch` answers. -/
theorem RunWorkflow_deleteBranch_iff (cfg : Config) (c : Collab) (v b : String)
    (h : (resolveVersionAndBranch cfg c).1 = .ok (v, b)) :
    ((RunWorkflow cfg c).trace.filter Event.isDeleteBranch =
        if cfg.IsDebugMode = false ∧
            ((RunWorkflow cfg c).outcome ≠ .ok ∨ cfg.GetMode = .ModeDirect) then
          [.DeleteBranch b]
        else []) ∧
    (((RunWorkflow cfg c).trace.filter Event.isGit).getLast? = some (.DeleteBranch b) ↔
        cfg.IsDebugMode = false ∧
          ((RunWorkflow cfg c).outcome ≠ .ok ∨ cfg.GetMode = .ModeDirect)) ∧
    ∀ d : String → Option GoError,
      (RunWorkflow cfg { c with DeleteBranch := d }).outcome = (RunWorkflow cfg c).outcome := by
  refine ⟨RunWorkflow_filter_deleteBranch cfg c v b h, RunWorkflow_last_git cfg c v b h, ?_⟩
  intro d
  rw [RunWorkflow_resolved cfg c v b h,
    RunWorkflow_resolved cfg { c with DeleteBranch := d } v b h]
  rfl

/-- The run of `RunWorkflow_deleteBranch_iff` in Direct mode where every
collaborator succeeds: the branch is deleted once, as the last git call. -/
theorem RunWorkflow_deleteBranch_iff_witness :
    (resolveVersionAndBranch cfgDirect collabQuiet).1 =
      .ok ("1.161.0", "speakeasy-sdk-regen-1") ∧
    (RunWorkflow cfgDirect collabQuiet).outcome = .ok ∧
    (RunWorkflow cfgDirect collabQuiet).trace.filter Event.isDeleteBranch =
      [.DeleteBranch "speakeasy-sdk-regen-1"] ∧
    ((RunWorkflow cfgDirect collabQuiet).trace.filter Event.isGit).getLast? =
      some (.DeleteBranch "speakeasy-sdk-regen-1") :=
  ⟨rfl, by decide,
    (RunWorkflow_deleteBranch_iff cfgDirect collabQuiet "1.161.0" "speakeasy-sdk-regen-1"
      rfl).1.trans (if_pos ⟨rfl, Or.inr rfl⟩),
    (RunWorkflow_deleteBranch_iff cfgDirect collabQuiet "1.161.0" "speakeasy-sdk-regen-1"
      rfl).2.1.mpr ⟨rfl, Or.inr rfl⟩⟩

/-- Claim C1, as amended: for every run of `RunWorkflow` with debug mode
disabled that returns an error, if the run got past branch resolution (the
error comes from generation, aggregation, persistence or `finalize`) then
`DeleteBranch` has been invoked exactly once, on the working branch, as the
last call to the version-control collaborator; if the error comes from run
initialisation, version resolution, the floor check or branch resolution, the
run returns that error before the cleanup is registered and `DeleteBranch` is
not invoked. -/
theorem RunWorkflow_error_cleanup (cfg : Config) (c : Collab) (e : GoError)
    (hd : cfg.IsDebugMode = false) (he : (RunWorkflow cfg c).outcome = .error e) :
    (∀ v b, (resolveVersionAndBranch cfg c).1 = .ok (v, b) →
      (RunWorkflow cfg c).trace.filter Event.isDeleteBranch = [.DeleteBranch b] ∧
      ((RunWorkflow cfg c).trace.filter Event.isGit).getLast? = some (.DeleteBranch b)) ∧
    (∀ e', (resolveVersionAndBranch cfg c).1 = .error e' →
      e' = e ∧ (RunWorkflow cfg c).trace.filter Event.isDeleteBranch = []) := by
  have hne : (RunWorkflow cfg c).outcome ≠ .ok := by rw [he]; simp
  constructor
  · intro v b h
    refine ⟨?_, (RunWorkflow_last_git cfg c v b h).mpr ⟨hd, Or.inl hne⟩⟩
    rw [RunWorkflow_filter_deleteBranch cfg c v b h, if_pos ⟨hd, Or.inl hne⟩]
  · intro e' h
    have hpre := filter_eq_nil_of_countP (resolve_countP Event.isDeleteBranch rfl
      (fun _ => rfl) rfl rfl (fun _ => rfl) cfg c)
    rw [RunWorkflow_unresolved cfg c e' h] at he ⊢
    simp only [Outcome.error.injEq] at he
    exact ⟨he, hpre⟩

/-- The run of `RunWorkflow_error_cleanup` in PR mode in which `CommitAndPush`
fails: the working branch is deleted. -/
theorem RunWorkflow_error_cleanup_witness :
    cfgPR.IsDebugMode = false ∧
    (RunWorkflow cfgPR collabPushFails).outcome = .error "push rejected" ∧
    (RunWorkflow cfgPR collabPushFails).trace.filter Event.isDeleteBranch =
      [.DeleteBranch "speakeasy-sdk-regen-1"] :=
  ⟨rfl, by decide,
    ((RunWorkflow_error_cleanup cfgPR collabPushFails "push rejected" rfl (by decide)).1
      "1.161.0" "speakeasy-sdk-regen-1" rfl).1⟩

/-- Claim C1 fails as stated: with debug mode disabled, the run in which
`initAction` fails and the run in which `FindOrCreateBranch` fails both return
an error, and neither invokes `DeleteBranch`. -/
theorem RunWorkflow_early_error_no_deleteBranch :
    cfgPR.IsDebugMode = false ∧
    (RunWorkflow cfgPR collabInitFails).outcome = .error "init failed" ∧
    (RunWorkflow cfgPR collabInitFails).trace.countP Event.isDeleteBranch = 0 ∧
    (RunWorkflow cfgPR collabBranchFails).outcome = .error "cannot create branch" ∧
    (RunWorkflow cfgPR collabBranchFails).trace.countP Event.isDeleteBranch = 0 := by
  refine ⟨rfl, ?_, ?_, ?_, ?_⟩ <;> decide

/-- Claim C4 fails on the code: in the run in which the generator succeeds and
`cli.GetSupportedLanguages` fails, `RunWorkflow` gets past branch resolution,
returns the error, and `setOutputs` is never called (the branch is deleted
all the same). -/
theorem RunWorkflow_languages_error_no_flush :
    (resolveVersionAndBranch cfgPR collabLanguagesFail).1 =
      .ok ("1.161.0", "speakeasy-sdk-regen-1") ∧
    (RunWorkflow cfgPR collabLanguagesFail).outcome = .error "cannot list languages" ∧
    (RunWorkflow cfgPR collabLanguagesFail).trace.countP Event.isSetOutputs = 0 ∧
    (RunWorkflow cfgPR collabLanguagesFail).trace.countP Event.isDeleteBranch = 1 := by
  refine ⟨rfl, ?_, ?_, ?_⟩ <;> decide

/-- Claim C6: for every run of `RunWorkflow` that reaches the generator (past
branch resolution, with resolved version `v` and working branch `b`) and in
which `run.Run` returns an error `e` and a map `o` that is not nil: the run
returns exactly `e`; the outputs are flushed exactly once, with
`"resolved_speakeasy_version"` set to `v`; no call of the aggregation, of the
persistence (`UpdateReleasesFile`, `CommitAndPush`) or of `finalize` is made;
and with debug mode disabled `DeleteBranch` is invoked, once, on `b`. -/
theorem RunWorkflow_generator_error (cfg : Config) (c : Collab) (v b : String)
    (gi : Option run.GenerationInfo) (o : Outputs) (e : GoError)
    (h : (resolveVersionAndBranch cfg c).1 = .ok (v, b)) (hrun : c.Run = (gi, some o, some e)) :
    (RunWorkflow cfg c).outcome = .error e ∧
    (RunWorkflow cfg c).trace.filter Event.isSetOutputs =
      [.setOutputs (o.insert "resolved_speakeasy_version" v)] ∧
    (o.insert "resolved_speakeasy_version" v) "resolved_speakeasy_version" = some v ∧
    (RunWorkflow cfg c).trace.countP Event.isAfterGeneration = 0 ∧
    (RunWorkflow cfg c).trace.countP Event.isUpdateReleasesFile = 0 ∧
    (cfg.IsDebugMode = false →
      (RunWorkflow cfg c).trace.filter Event.isDeleteBranch = [.DeleteBranch b]) := by
  have hbody : runBody cfg c v b =
      ⟨false, .error e,
        .Run :: .setOutputs (o.insert "resolved_speakeasy_version" v) ::
          debugIfError "failed to set outputs: "
            (c.setOutputs (o.insert "resolved_speakeasy_version" v))⟩ := by
    simp [runBody, hrun]
  have hout : (RunWorkflow cfg c).outcome = .error e := by
    rw [RunWorkflow_resolved cfg c v b h, hbody]
  have htr : (RunWorkflow cfg c).trace =
      (resolveVersionAndBranch cfg c).2 ++
        (.Run :: .setOutputs (o.insert "resolved_speakeasy_version" v) ::
          debugIfError "failed to set outputs: "
            (c.setOutputs (o.insert "resolved_speakeasy_version" v))) ++
        deferredCleanup cfg c false b := by
    rw [RunWorkflow_resolved cfg c v b h, hbody]
  refine ⟨hout, ?_, ?_, ?_, ?_, ?_⟩
  · have h1 := filter_eq_nil_of_countP (resolve_countP Event.isSetOutputs rfl
      (fun _ => rfl) rfl rfl (fun _ => rfl) cfg c)
    have h2 := fun m r => filter_eq_nil_of_countP
      (debugIfError_countP Event.isSetOutputs (fun _ => rfl) m r)
    have h3 := filter_eq_nil_of_countP (deferredCleanup_countP Event.isSetOutputs
      (fun _ => rfl) (fun _ => rfl) cfg c false b)
    rw [htr]
    simp [List.filter_append, List.filter_cons, h1, h2, h3, Event.isSetOutputs]
  · simp [GoMap.insert]
  · have h1 := resolve_countP Event.isAfterGeneration rfl (fun _ => rfl) rfl rfl
      (fun _ => rfl) cfg c
    have h2 := debugIfError_countP Event.isAfterGeneration (fun _ => rfl)
    have h3 := deferredCleanup_countP Event.isAfterGeneration
      (fun _ => rfl) (fun _ => rfl) cfg c false b
    rw [htr]
    simp [List.countP_append, List.countP_cons, h1, h2, h3, Event.isAfterGeneration]
  · have h1 := resolve_countP Event.isUpdateReleasesFile rfl (fun _ => rfl) rfl rfl
      (fun _ => rfl) cfg c
    have h2 := debugIfError_countP Event.isUpdateReleasesFile (fun _ => rfl)
    have h3 := deferredCleanup_countP Event.isUpdateReleasesFile
      (fun _ => rfl) (fun _ => rfl) cfg c false b
    rw [htr]
    simp [List.countP_append, List.countP_cons, h1, h2, h3, Event.isUpdateReleasesFile]
  · intro hd
    rw [RunWorkflow_filter_deleteBranch cfg c v b h, if_pos ⟨hd, Or.inl (by rw [hout]; simp)⟩]

/-- The run of `RunWorkflow_generator_error` in PR mode in which the generator
fails: the error is returned and the working branch is deleted. -/
theorem RunWorkflow_generator_error_witness :
    (resolveVersionAndBranch cfgPR collabGeneratorFails).1 =
      .ok ("1.161.0", "speakeasy-sdk-regen-1") ∧
    collabGeneratorFails.Run = (none, some GoMap.empty, some "generation failed") ∧
    (RunWorkflow cfgPR collabGeneratorFails).outcome = .error "generation failed" ∧
    (RunWorkflow cfgPR collabGeneratorFails).trace.countP Event.isAfterGeneration = 0 ∧
    (RunWorkflow cfgPR collabGeneratorFails).trace.filter Event.isDeleteBranch =
      [.DeleteBranch "speakeasy-sdk-regen-1"] :=
  ⟨rfl, rfl,
    (RunWorkflow_generator_error cfgPR collabGeneratorFails "1.161.0" "speakeasy-sdk-regen-1"
      none GoMap.empty "generation failed" rfl rfl).1,
    (RunWorkflow_generator_error cfgPR collabGeneratorFails "1.161.0" "speakeasy-sdk-regen-1"
      none GoMap.empty "generation failed" rfl rfl).2.2.2.1,
    (RunWorkflow_generator_error cfgPR collabGeneratorFails "1.161.0" "speakeasy-sdk-regen-1"
      none GoMap.empty "generation failed" rfl rfl).2.2.2.2.2 rfl⟩

/-- Claim C8, as amended: `UpdateReleasesFile` is invoked with the record `r`
and the directory `d` exactly when the run got past branch resolution, the
generator returned no error, a generation info that is not nil and outputs
that are not nil, `GetSupportedLanguages` succeeded and `getReleasesDir`
answered `d`; `r` is then the record the aggregation loop built from the
generation info, the outputs (with the resolved version stored) and the
supported languages, whether or not its `LanguagesGenerated` has an entry. -/
theorem RunWorkflow_updateReleasesFile_iff (cfg : Config) (c : Collab)
    (r : releases.ReleasesInfo) (d : String) :
    Event.UpdateReleasesFile r d ∈ (RunWorkflow cfg c).trace ↔
      ∃ v b G o L, (resolveVersionAndBranch cfg c).1 = .ok (v, b) ∧
        c.Run = (some G, some o, none) ∧ c.GetSupportedLanguages = .ok L ∧
        c.getReleasesDir .RunWorkflow = .ok d ∧
        r = (aggregate cfg.GetInvokeTime cfg.GetOpenAPIDocLocation G
          (o.insert "resolved_speakeasy_version" v) L).releaseInfo := by
  have hpre := not_mem_of_countP (resolve_countP Event.isUpdateReleasesFile rfl (fun _ => rfl)
    rfl rfl (fun _ => rfl) cfg c) (.UpdateReleasesFile r d) rfl
  cases hP : (resolveVersionAndBranch cfg c).1 with
  | error e =>
    rw [RunWorkflow_unresolved cfg c e hP]
    simp [hpre]
  | ok vb =>
    obtain ⟨v, b⟩ := vb
    have hcl := not_mem_of_countP (deferredCleanup_countP Event.isUpdateReleasesFile
      (fun _ => rfl) (fun _ => rfl) cfg c (runBody cfg c v b).success b)
      (.UpdateReleasesFile r d) rfl
    rw [RunWorkflow_resolved cfg c v b hP]
    simp only [List.mem_append, hpre, hcl, false_or, or_false, runBody_mem_update]
    constructor
    · rintro ⟨G, o, L, h1, h2, h3, h4⟩
      exact ⟨v, b, G, o, L, rfl, h1, h2, h3, h4⟩
    · rintro ⟨v', b', G, o, L, h0, h1, h2, h3, h4⟩
      cases h0
      exact ⟨G, o, L, h1, h2, h3, h4⟩

/-- Claim C8 fails as stated: in the run in which every collaborator succeeds
and the generator returns a generation info but no regenerated flag,
`UpdateReleasesFile` is invoked with a record whose `LanguagesGenerated` has
no entry. -/
theorem RunWorkflow_persists_empty_record :
    ∃ r d, Event.UpdateReleasesFile r d ∈ (RunWorkflow cfgPR collabQuiet).trace ∧
      ∀ l, r.LanguagesGenerated l = none := by
  refine ⟨(aggregate cfgPR.GetInvokeTime cfgPR.GetOpenAPIDocLocation pythonGenInfo
    (GoMap.insert GoMap.empty "resolved_speakeasy_version" "1.161.0")
    ["go", "python", "typescript"]).releaseInfo, ".", ?_, ?_⟩
  · simp [RunWorkflow, resolveVersionAndBranch, runBody, cfgPR, collabQuiet,
      finalizeAndSucceed_trace]
  · intro l
    rw [aggregate_generated]
    simp [generatedEntry, GoMap.insert, GoMap.empty]

theorem finalizeAndSucceed_false (cfg : Config) (c : Collab) (o : Outputs) (b found : String)
    (before : List Event) (h : c.FindBranch b = .ok found) :
    finalizeAndSucceed cfg c o b false before =
      ⟨true, .ok,
        before ++ .FindBranch b :: .setOutputs (o.insert "branch_name" found) ::
          debugIfError "failed to set outputs: "
            (c.setOutputs (o.insert "branch_name" found))⟩ := by
  simp [finalizeAndSucceed, finalize_false cfg c o b found h]

theorem aggregate_flag_false (t d : String) (G : run.GenerationInfo) (o : Outputs)
    (v : String) (L : List String) (hno : ∀ l, o (l ++ "_regenerated") ≠ some "true") :
    (aggregate t d G (o.insert "resolved_speakeasy_version" v) L).anythingRegenerated =
      false := by
  rw [aggregate_flag, List.any_eq_false]
  intro l _
  simp [generatedEntry, GoMap.insert, regenerated_key_ne, hno]

/-- Claim C9, as amended: for every run of `RunWorkflow` in PR mode (with
debug mode disabled, and also with it enabled) in which every collaborator
succeeds and no language is regenerated: the run returns no error;
`CreateOrUpdatePR` is not invoked; the outputs are flushed exactly once, with
`"branch_name"` set to the name `FindBranch` returned and no `"commit_hash"`
(the generator's outputs carrying none); and the working branch is kept:
`DeleteBranch` is not invoked. -/
theorem RunWorkflow_pr_nothing_regenerated (cfg : Config) (c : Collab) (v b found d : String)
    (gi : Option run.GenerationInfo) (o : Outputs) (L : List String)
    (hmode : cfg.GetMode = .ModePR)
    (hpre : (resolveVersionAndBranch cfg c).1 = .ok (v, b))
    (hrun : c.Run = (gi, some o, none))
    (hno : ∀ l, o (l ++ "_regenerated") ≠ some "true")
    (hnohash : o "commit_hash" = none)
    (hlangs : c.GetSupportedLanguages = .ok L)
    (hdir : c.getReleasesDir .RunWorkflow = .ok d)
    (hupd : ∀ r, c.UpdateReleasesFile r d = none)
    (hpush : ∀ x y, ∃ hash, c.CommitAndPush x y "" .ActionRunWorkflow = .ok hash)
    (hfind : c.FindBranch b = .ok found) :
    (RunWorkflow cfg c).outcome = .ok ∧
    (RunWorkflow cfg c).trace.countP Event.isCreateOrUpdatePR = 0 ∧
    (RunWorkflow cfg c).trace.filter Event.isSetOutputs =
      [.setOutputs ((o.insert "resolved_speakeasy_version" v).insert "branch_name" found)] ∧
    ((o.insert "resolved_speakeasy_version" v).insert "branch_name" found) "branch_name" =
      some found ∧
    ((o.insert "resolved_speakeasy_version" v).insert "branch_name" found) "commit_hash" =
      none ∧
    (RunWorkflow cfg c).trace.filter Event.isDeleteBranch = [] := by
  have hbody : ∃ T : List Event, T.countP Event.isCreateOrUpdatePR = 0 ∧
      T.filter Event.isSetOutputs = [] ∧
      runBody cfg c v b = ⟨true, .ok,
        T ++ .FindBranch b ::
          .setOutputs ((o.insert "resolved_speakeasy_version" v).insert "branch_name" found) ::
          debugIfError "failed to set outputs: " (c.setOutputs
            ((o.insert "resolved_speakeasy_version" v).insert "branch_name" found))⟩ := by
    cases gi with
    | none =>
      refine ⟨[.Run], by simp [Event.isCreateOrUpdatePR], by simp [Event.isSetOutputs], ?_⟩
      simp [runBody, hrun, finalizeAndSucceed_false cfg c _ b found _ hfind]
    | some G =>
      obtain ⟨hash, hC⟩ := hpush G.OpenAPIDocVersion G.SpeakeasyVersion
      refine ⟨[.Run, .GetSupportedLanguages, .getReleasesDir,
        .UpdateReleasesFile (aggregate cfg.GetInvokeTime cfg.GetOpenAPIDocLocation G
          (o.insert "resolved_speakeasy_version" v) L).releaseInfo d,
        .CommitAndPush G.OpenAPIDocVersion G.SpeakeasyVersion "" .ActionRunWorkflow],
        by simp [Event.isCreateOrUpdatePR], by simp [Event.isSetOutputs], ?_⟩
      simp [runBody, hrun, hlangs, hdir, hupd, hC, aggregate_flag_false _ _ _ _ _ _ hno,
        finalizeAndSucceed_false cfg c _ b found _ hfind]
  obtain ⟨T, hT1, hT2, hB⟩ := hbody
  have hout : (RunWorkflow cfg c).outcome = .ok := by
    rw [RunWorkflow_resolved cfg c v b hpre, hB]
  have hcond : ¬ (cfg.IsDebugMode = false ∧
      ((RunWorkflow cfg c).outcome ≠ .ok ∨ cfg.GetMode = .ModeDirect)) := by
    rw [hout, hmode]; simp
  have htr := RunWorkflow_cleanup cfg c v b hpre
  rw [if_neg hcond, List.append_nil, hB] at htr
  refine ⟨hout, ?_, ?_, ?_, ?_, ?_⟩
  · have h1 := resolve_countP Event.isCreateOrUpdatePR rfl (fun _ => rfl) rfl rfl
      (fun _ => rfl) cfg c
    have h2 := debugIfError_countP Event.isCreateOrUpdatePR (fun _ => rfl)
    rw [htr]
    simp [List.countP_append, List.countP_cons, h1, h2, hT1, Event.isCreateOrUpdatePR]
  · have h1 := filter_eq_nil_of_countP (resolve_countP Event.isSetOutputs rfl
      (fun _ => rfl) rfl rfl (fun _ => rfl) cfg c)
    have h2 := fun m r => filter_eq_nil_of_countP
      (debugIfError_countP Event.isSetOutputs (fun _ => rfl) m r)
    rw [htr]
    simp [List.filter_append, List.filter_cons, h1, h2, hT2, Event.isSetOutputs]
  · simp [GoMap.insert]
  · simp [GoMap.insert, hnohash]
  · rw [RunWorkflow_filter_deleteBranch cfg c v b hpre, if_neg hcond]

/-- The run of `RunWorkflow_pr_nothing_regenerated` in which every
collaborator succeeds and the generator's outputs have no key. -/
theorem RunWorkflow_pr_nothing_regenerated_witness :
    cfgPR.GetMode = .ModePR ∧ cfgPR.IsDebugMode = false ∧
    (resolveVersionAndBranch cfgPR collabQuiet).1 = .ok ("1.161.0", "speakeasy-sdk-regen-1") ∧
    collabQuiet.Run = (some pythonGenInfo, some GoMap.empty, none) ∧
    (RunWorkflow cfgPR collabQuiet).outcome = .ok ∧
    (RunWorkflow cfgPR collabQuiet).trace.countP Event.isCreateOrUpdatePR = 0 ∧
    (RunWorkflow cfgPR collabQuiet).trace.filter Event.isDeleteBranch = [] :=
  have key := RunWorkflow_pr_nothing_regenerated cfgPR collabQuiet "1.161.0"
    "speakeasy-sdk-regen-1" "speakeasy-sdk-regen-1" "." (some pythonGenInfo) GoMap.empty
    ["go", "python", "typescript"] rfl rfl rfl (fun _ => by simp [GoMap.empty]) rfl rfl rfl
    (fun _ => rfl) (fun _ _ => ⟨"abc123", rfl⟩) rfl
  ⟨rfl, rfl, rfl, rfl, key.1, key.2.1, key.2.2.2.2.2⟩

/-- Claim C9 fails as stated: in the run in PR mode with debug mode disabled
in which every collaborator succeeds and no language is regenerated, the run
returns no error and `DeleteBranch` is not invoked; the calls to the
version-control collaborator are those listed. -/
theorem RunWorkflow_pr_success_keeps_branch :
    cfgPR.GetMode = .ModePR ∧ cfgPR.IsDebugMode = false ∧
    (RunWorkflow cfgPR collabQuiet).outcome = .ok ∧
    (RunWorkflow cfgPR collabQuiet).trace.countP Event.isDeleteBranch = 0 ∧
    (RunWorkflow cfgPR collabQuiet).trace.filter Event.isGit =
      [.FindExistingPR "" .ActionRunWorkflow, .FindOrCreateBranch "" .ActionRunWorkflow,
        .CommitAndPush "1.0.0" "1.161.0" "" .ActionRunWorkflow,
        .FindBranch "speakeasy-sdk-regen-1"] := by
  refine ⟨rfl, rfl, ?_, ?_, rfl⟩ <;> decide
